import Mathlib

/-!
Verification of the AI website-generator core (classifier, structure catalog,
keyword extraction, per-file instruction dispatch, response parser, and the
input-validation / failure behaviour of the generation endpoint).

Strings are embedded as `List Char`.  Python's `str.lower` is modelled by
`Char.toLower` (they agree on the ASCII strings occurring here), `str.strip`
by dropping Python's whitespace characters from both ends, the substring test
`in` by `List.IsInfix`, and a `dict` built by repeated assignment by an
association list with update-or-append insertion.
-/

abbrev Str := List Char

/-- Python whitespace characters stripped by `str.strip()`. -/
def pySpace (c : Char) : Bool :=
  c = ' ' || c = '\t' || c = '\n' || c = '\r' || c = Char.ofNat 11 || c = Char.ofNat 12

/-- Python `s.strip()`. -/
def pyStrip (s : Str) : Str :=
  ((s.dropWhile pySpace).reverse.dropWhile pySpace).reverse

/-- Python `s.lower()` (ASCII). -/
def lowerStr (s : Str) : Str := s.map Char.toLower

/-- Python `needle in hay` (substring test). -/
def containsSub (hay needle : Str) : Bool := decide (needle <:+: hay)

/-- Python `hay.endswith (s)`. -/
def endsWith (hay s : Str) : Bool := decide (s <:+ hay)

/-- Python `hay.startswith (s)`. -/
def startsWith (hay s : Str) : Bool := decide (s <+: hay)

/-! ## website_structures.py -/

/-- The `files`/`description` dictionaries returned by the
`get_*_structure` functions of `website_structures.py`. -/
structure SiteStructure where
  files : List Str
  description : Str
deriving DecidableEq

def get_landing_page_structure : SiteStructure :=
  { files := ["index.html", "style.css", "script.js"].map String.toList
    description := "Single-page landing site".toList }

def get_multi_page_structure : SiteStructure :=
  { files := ["index.html", "about.html", "services.html", "contact.html",
      "css/style.css", "css/responsive.css", "js/script.js",
      "js/navigation.js"].map String.toList
    description := "Multi-page website with navigation".toList }

def get_portfolio_structure : SiteStructure :=
  { files := ["index.html", "about.html", "projects.html", "project-detail.html",
      "contact.html", "css/style.css", "css/projects.css", "js/script.js",
      "js/projects.js", "js/filter.js"].map String.toList
    description := "Portfolio website with project showcase".toList }

def get_blog_structure : SiteStructure :=
  { files := ["index.html", "article.html", "about.html", "contact.html",
      "css/style.css", "css/blog.css", "js/script.js", "js/blog.js"].map String.toList
    description := "Blog website with article pages".toList }

def get_webapp_structure : SiteStructure :=
  { files := ["public/index.html", "public/login.html", "public/signup.html",
      "public/dashboard.html", "public/css/style.css", "public/css/auth.css",
      "public/css/dashboard.css", "public/js/main.js", "public/js/auth.js",
      "public/js/dashboard.js", "backend/server.js", "backend/routes/auth.js",
      "backend/routes/users.js", "backend/models/User.js",
      "backend/middleware/auth.js", "backend/config/db.js", "package.json",
      ".env.example", ".gitignore", "README.md"].map String.toList
    description := "Production-ready full-stack web application with authentication (Render-deployable)".toList }

def get_ecommerce_structure : SiteStructure :=
  { files := ["index.html", "products.html", "product-detail.html", "cart.html",
      "checkout.html", "login.html", "signup.html", "account.html",
      "css/style.css", "css/products.css", "css/cart.css", "js/products.js",
      "js/cart.js", "js/checkout.js", "backend/server.js",
      "backend/routes/products.js", "backend/routes/cart.js",
      "backend/routes/orders.js", "backend/models/Product.js",
      "backend/models/Order.js", "backend/models/User.js", "package.json",
      "README.md", "database/schema.sql"].map String.toList
    description := "E-commerce website with shopping cart".toList }

/-- The dictionary returned by `determine_website_structure`.  The
`backend_framework`/`database_type` keys are only present for the two
backend-carrying categories, modelled with `Option`. -/
structure StructureInfo where
  type : Str
  files : List Str
  description : Str
  needs_backend : Bool
  needs_database : Bool
  backend_framework : Option Str
  database_type : Option Str
deriving DecidableEq

def authKeywords : List Str :=
  ["login", "signup", "authentication", "user account", "register",
   "dashboard", "profile", "sign up", "sign in"].map String.toList

def ecommerceKeywords : List Str :=
  ["shop", "store", "ecommerce", "e-commerce", "products", "cart", "buy",
   "sell", "checkout", "payment"].map String.toList

def blogKeywords : List Str :=
  ["blog", "articles", "posts", "cms", "content management"].map String.toList

def portfolioKeywords : List Str :=
  ["portfolio", "showcase", "gallery", "projects", "work"].map String.toList

def multipageKeywords : List Str :=
  ["pages", "about page", "contact page", "multiple pages", "navigation",
   "menu", "services page"].map String.toList

/-- Python `any(word in description_lower for word in ws)`. -/
def anyKeyword (ws : List Str) (descriptionLower : Str) : Bool :=
  ws.any (fun w => containsSub descriptionLower w)

def determine_website_structure (description : Str) : StructureInfo :=
  let description_lower := lowerStr description
  let has_auth := anyKeyword authKeywords description_lower
  let has_ecommerce := anyKeyword ecommerceKeywords description_lower
  let has_blog := anyKeyword blogKeywords description_lower
  let has_portfolio := anyKeyword portfolioKeywords description_lower
  let has_multipage := anyKeyword multipageKeywords description_lower
  if has_ecommerce then
    { type := "ecommerce".toList
      files := get_ecommerce_structure.files
      description := get_ecommerce_structure.description
      needs_backend := true, needs_database := true
      backend_framework := some "express".toList
      database_type := some "mongodb".toList }
  else if has_auth then
    { type := "web_application".toList
      files := get_webapp_structure.files
      description := get_webapp_structure.description
      needs_backend := true, needs_database := true
      backend_framework := some "express".toList
      database_type := some "mongodb".toList }
  else if has_blog then
    { type := "blog".toList
      files := get_blog_structure.files
      description := get_blog_structure.description
      needs_backend := false, needs_database := false
      backend_framework := none, database_type := none }
  else if has_portfolio then
    { type := "portfolio".toList
      files := get_portfolio_structure.files
      description := get_portfolio_structure.description
      needs_backend := false, needs_database := false
      backend_framework := none, database_type := none }
  else if has_multipage then
    { type := "multi_page".toList
      files := get_multi_page_structure.files
      description := get_multi_page_structure.description
      needs_backend := false, needs_database := false
      backend_framework := none, database_type := none }
  else
    { type := "landing_page".toList
      files := get_landing_page_structure.files
      description := get_landing_page_structure.description
      needs_backend := false, needs_database := false
      backend_framework := none, database_type := none }

/-! ## app.py: extract_keywords_from_description -/

/-- The topic-to-keywords dictionary of `extract_keywords_from_description`,
in Python dict (insertion) order. -/
def keyword_map : List (Str × List Str) :=
  [("coffee", ["coffee", "cafe", "espresso", "latte", "barista"]),
   ("restaurant", ["restaurant", "food", "dining", "cuisine", "chef"]),
   ("portfolio", ["office", "workspace", "professional", "desk", "modern"]),
   ("photography", ["camera", "photography", "photos", "gallery", "art"]),
   ("fitness", ["fitness", "gym", "workout", "exercise", "health"]),
   ("tech", ["technology", "computer", "coding", "startup", "innovation"]),
   ("fashion", ["fashion", "clothing", "style", "boutique", "shopping"]),
   ("travel", ["travel", "vacation", "destination", "adventure", "beach"]),
   ("food", ["food", "cooking", "ingredients", "kitchen", "recipe"]),
   ("shop", ["store", "shopping", "products", "retail", "display"])].map
    (fun tk => (tk.1.toList, tk.2.map String.toList))

def generalKeywords : List Str :=
  ["modern", "business", "professional"].map String.toList

/-- `extract_keywords_from_description` of `app.py`: first topic (in dict
order) whose name occurs in the lower-cased description contributes its
first 3 keywords and the loop breaks; otherwise the general fallback. -/
def extract_keywords_from_description (description : Str) : List Str :=
  let description_lower := lowerStr description
  let matched_keywords :=
    match keyword_map.find? (fun tk => containsSub description_lower tk.1) with
    | some tk => tk.2.take 3
    | none => []
  if matched_keywords = [] then generalKeywords else matched_keywords

/-! ## prompt_builder.py: build_file_instructions

The per-file instruction texts (Python string literals; apostrophes are
written as \x27 and literal braces as \x7b/\x7d). -/

def authPageInstructions : Str :=
  "\nThis is an authentication page. Include:\n- Clean, modern form design\n- Email and password inputs\n- \"Remember me\" checkbox (for login)\n- \"Forgot password?\" link (for login)\n- Terms acceptance checkbox (for signup)\n- Client-side validation\n- Error message display area\n- Loading state handling\n- Redirect logic after successful auth\n".toList

def dashboardPageInstructions : Str :=
  "\nThis is a protected dashboard page. Include:\n- User greeting with name\n- Navigation sidebar/menu\n- Main content area with cards/stats\n- Quick actions section\n- Logout button\n- Profile link\n- Responsive layout\n".toList

def profileSettingsInstructions : Str :=
  "\nThis is a user profile/settings page. Include:\n- Form to edit user information\n- Password change section\n- Profile picture upload (placeholder)\n- Save/Cancel buttons\n- Success/error messages\n- Validation feedback\n".toList

def homePageInstructions : Str :=
  "\nThis is the homepage. Include:\n- Hero section with compelling headline\n- Call-to-action buttons\n- Features/benefits section\n- Testimonials (if applicable)\n- Footer with links and info\n".toList

def genericHtmlInstructions : Str :=
  "\nCreate a well-structured HTML page with:\n- Proper semantic HTML5\n- Consistent navigation\n- Responsive design\n- Accessibility features\n".toList

def cssInstructions : Str :=
  "\nCreate comprehensive CSS with:\n- CSS variables for colors/fonts\n- Responsive breakpoints\n- Modern layout (Flexbox/Grid)\n- Hover effects and transitions\n- Consistent spacing\n- Mobile-first approach\n".toList

def authJsInstructions : Str :=
  "\nCreate authentication JavaScript with:\n- A single base URL constant at the very top:\n    const API_BASE = window.location.origin + \x27/api\x27;\n  Use this for ALL fetch calls so the app works both locally and on Render without changes.\n- Form validation before submitting\n- fetch() calls to $\x7bAPI_BASE\x7d/auth/login and $\x7bAPI_BASE\x7d/auth/signup\n- JWT token stored in localStorage after successful auth\n- Redirect to dashboard after login/signup\n- Redirect to login if token missing on protected pages\n- User-friendly error messages shown in the DOM\n- Loading / disabled button state while request is in flight\n".toList

def dashboardJsInstructions : Str :=
  "\nCreate dashboard JavaScript with:\n- Check if user is authenticated\n- Fetch user data from API\n- Handle logout\n- Update UI with user info\n- Redirect to login if not authenticated\n".toList

def genericJsInstructions : Str :=
  "\nCreate JavaScript with:\n- Event listeners\n- Form handling\n- Smooth scrolling/animations\n- Mobile menu toggle\n- Any interactive features\n".toList

def serverJsInstructions : Str :=
  "\nCreate a production-ready Express.js server. STRICT RULES:\n\n1. FIRST line: require(\x27dotenv\x27).config();\n2. Use: const PORT = process.env.PORT || 5000;\n3. MongoDB: mongoose.connect(process.env.MONGO_URI) — NEVER use hardcoded URIs.\n4. CORS — allow all origins:\n   app.use(cors(\x7b origin: \x27*\x27, methods: [\x27GET\x27,\x27POST\x27,\x27PUT\x27,\x27DELETE\x27,\x27OPTIONS\x27], allowedHeaders: [\x27Content-Type\x27,\x27Authorization\x27] \x7d));\n5. Static files: app.use(express.static(\x27public\x27));\n6. Body parsers: app.use(express.json()); app.use(express.urlencoded(\x7b extended: true \x7d));\n7. Mount routes under /api/auth and /api/users.\n8. Global error handler middleware at the bottom.\n9. Startup logs:\n   console.log(`Server running on port $\x7bPORT\x7d`);\n   console.log(\x27MongoDB connected\x27);\n10. Do NOT use nodemon — only \x27node backend/server.js\x27 in production.\n".toList

def routesInstructions : Str :=
  "\nCreate Express route file with:\n- Use express.Router()\n- Import controller or write inline logic\n- Use process.env.JWT_SECRET for JWT signing/verification (NEVER hardcode)\n- Password hashing with bcryptjs (saltRounds=10)\n- Return consistent JSON: \x7b success: true/false, data: \x7b\x7d, message: \x27\x27 \x7d\n- Proper HTTP status codes (200, 201, 400, 401, 404, 500)\n- try/catch on every async handler with next(err)\n- For auth routes: POST /signup, POST /login, GET /me (protected)\n".toList

def modelsInstructions : Str :=
  "\nCreate Mongoose model with:\n- Schema definition\n- Field validation\n- Required fields\n- Default values\n- Timestamps\n- Methods (if needed)\n".toList

def packageJsonInstructions : Str :=
  "\nCreate package.json with:\n- \"main\": \"backend/server.js\"\n- Scripts MUST be exactly:\n    \"start\": \"node backend/server.js\"\n  Do NOT include nodemon or dev scripts.\n- Dependencies: express, mongoose, bcryptjs, jsonwebtoken, dotenv, cors\n- No devDependencies needed\n- Proper formatting\n".toList

def envExampleInstructions : Str :=
  "\nCreate .env.example with exactly these keys (no values for sensitive ones):\n  PORT=5000\n  MONGO_URI=\n  JWT_SECRET=\nAdd a comment above each explaining what it is.\nDo NOT create a real .env file.\n".toList

def readmeInstructions : Str :=
  "\nCreate README.md with:\n- Project title and description\n- Features list\n- Installation instructions\n- Environment setup\n- How to run\n- API endpoints (if backend)\n- Technologies used\n".toList

def gitignoreInstructions : Str :=
  "\nCreate a .gitignore that excludes:\n  node_modules/\n  .env\n  *.log\n  .DS_Store\n  dist/\n  build/\n".toList

def sqlInstructions : Str :=
  "\nCreate SQL schema with:\n- Table definitions\n- Proper data types\n- Primary keys\n- Foreign keys (if needed)\n- Indexes\n- Sample data (optional)\n".toList

def defaultInstructions : Str :=
  "Create this file with appropriate content for its purpose.".toList

/-- `build_file_instructions` of `prompt_builder.py`, with the source's
branch order: the `.html`/`.css`/`.js` suffix tests come before the exact
`server.js` match and the `routes`/`models` substring tests. -/
def build_file_instructions (filename : Str) : Str :=
  if endsWith filename ".html".toList then
    if containsSub filename "login".toList || containsSub filename "signup".toList then
      authPageInstructions
    else if containsSub filename "dashboard".toList then
      dashboardPageInstructions
    else if containsSub filename "profile".toList || containsSub filename "settings".toList then
      profileSettingsInstructions
    else if containsSub filename "index".toList then
      homePageInstructions
    else
      genericHtmlInstructions
  else if endsWith filename ".css".toList then
    cssInstructions
  else if endsWith filename ".js".toList then
    if containsSub filename "auth".toList && endsWith filename ".js".toList
        && !containsSub filename "backend".toList && !containsSub filename "routes".toList then
      authJsInstructions
    else if containsSub filename "dashboard".toList then
      dashboardJsInstructions
    else
      genericJsInstructions
  else if filename = "backend/server.js".toList ∨ filename = "server.js".toList then
    serverJsInstructions
  else if containsSub filename "routes".toList then
    routesInstructions
  else if containsSub filename "models".toList then
    modelsInstructions
  else if filename = "package.json".toList then
    packageJsonInstructions
  else if filename = ".env.example".toList then
    envExampleInstructions
  else if filename = "README.md".toList then
    readmeInstructions
  else if filename = ".gitignore".toList then
    gitignoreInstructions
  else if endsWith filename ".sql".toList then
    sqlInstructions
  else
    defaultInstructions

/-! ## app.py: parse_files_from_response -/

def FILEmark : Str := "FILE:".toList

def fenceStr : Str := "```".toList

/-- Split at the first occurrence of `sep` (non-overlapping, left-to-right):
`some (before, after)` when `sep` occurs, `none` otherwise. -/
def splitAtFirst (sep : Str) : Str → Option (Str × Str)
  | [] => if startsWith [] sep then some ([], []) else none
  | c :: t =>
    if startsWith (c :: t) sep then some ([], (c :: t).drop sep.length)
    else
      match splitAtFirst sep t with
      | some (a, b) => some (c :: a, b)
      | none => none

/-- Python `line.split(sep)[1]`: the segment between the first and second
occurrence of `sep` (or everything after the first occurrence when it is
the only one).  Only used on lines that contain `sep`. -/
def pySplitSecond (sep l : Str) : Str :=
  match splitAtFirst sep l with
  | none => []
  | some (_, rest) =>
    match splitAtFirst sep rest with
    | none => rest
    | some (a, _) => a

/-- The filename extracted from a `FILE:` line:
`line.split(\x27FILE:\x27)[1].strip().replace(\x27`\x27, \x27\x27).strip()`. -/
def parsedName (line : Str) : Str :=
  pyStrip ((pyStrip (pySplitSecond FILEmark line)).filter (fun c => c ≠ '`'))

/-- State of the line-oriented pass of `parse_files_from_response`:
accumulated dict, `current_file` (`[]` models Python's falsy `None`/`""`),
`in_code_block`, and the buffered code lines. -/
structure ParseState where
  files : List (Str × Str)
  current : Str
  inCode : Bool
  buf : List Str
deriving DecidableEq

/-- Python dict assignment `m[k] = v`: update in place if the key exists,
else append. -/
def dinsert (m : List (Str × Str)) (k v : Str) : List (Str × Str) :=
  match m with
  | [] => [(k, v)]
  | (k', v') :: t => if k' = k then (k, v) :: t else (k', v') :: dinsert t k v

def joinNL (ls : List Str) : Str := List.intercalate ['\n'] ls

/-- `if current_file and code_content: files[current_file] = '\n'.join(code_content).strip()`. -/
def flushFiles (st : ParseState) : List (Str × Str) :=
  if st.current ≠ [] ∧ st.buf ≠ [] then
    dinsert st.files st.current (pyStrip (joinNL st.buf))
  else st.files

/-- One iteration of the parsing loop of `parse_files_from_response`. -/
def procLine (st : ParseState) (line : Str) : ParseState :=
  if containsSub line FILEmark then
    { files := flushFiles st, current := parsedName line, inCode := false, buf := [] }
  else if startsWith (pyStrip line) fenceStr then
    { st with inCode := !st.inCode }
  else if st.inCode = true ∧ st.current ≠ [] then
    { st with buf := st.buf ++ [line] }
  else st

def initState : ParseState := ⟨[], [], false, []⟩

/-- Method 1 of `parse_files_from_response`: the `FILE:`-marker pass. -/
def methodOne (text : Str) : List (Str × Str) :=
  flushFiles (List.foldl procLine initState (text.splitOn '\n'))

def fenceTags : List Str := ["html", "css", "javascript", "js", "json"].map String.toList

/-- Consume `(?:html|css|javascript|js|json)?\n` after an opening fence
(regex alternation order; the optional group backtracks to the bare `\n`). -/
def consumeTagNL (s : Str) : Option Str :=
  match fenceTags.find? (fun t => startsWith s (t ++ ['\n'])) with
  | some t => some (s.drop (t.length + 1))
  | none =>
    match s with
    | '\n' :: rest => some rest
    | _ => none

/-- Try to match ```` ```(?:html|css|javascript|js|json)?\n(.*?)``` ```` at the
start of `s`; on success return the (lazy, so first-closing-fence) capture
and the remainder of the text after the closing fence. -/
def tryMatchFence (s : Str) : Option (Str × Str) :=
  if startsWith s fenceStr then
    match consumeTagNL (s.drop 3) with
    | some rest =>
      match splitAtFirst fenceStr rest with
      | some (cap, rest2) => some (cap, rest2)
      | none => none
    | none => none
  else none

/-- `re.findall` scan: try to match at each position, resuming after the end
of each match.  The fuel is an upper bound on the number of steps; each step
either advances one character or consumes a whole match (at least 7
characters), so `s.length` fuel is always enough. -/
def findBlocksAux : Nat → Str → List Str
  | 0, _ => []
  | _ + 1, [] => []
  | n + 1, c :: t =>
    match tryMatchFence (c :: t) with
    | some (cap, rest) => cap :: findBlocksAux n rest
    | none => findBlocksAux n t

/-- All captures of `re.findall(r'```(?:html|css|javascript|js|json)?\n(.*?)```', text, re.DOTALL)`. -/
def findBlocks (s : Str) : List Str := findBlocksAux s.length s

/-- Method 2 of `parse_files_from_response`: if at least 3 fenced blocks are
found, assign the first three to the fixed vanilla filenames. -/
def methodTwo (text : Str) : List (Str × Str) :=
  match findBlocks text with
  | m0 :: m1 :: m2 :: _ =>
    dinsert (dinsert (dinsert [] "index.html".toList (pyStrip m0))
      "style.css".toList (pyStrip m1)) "script.js".toList (pyStrip m2)
  | _ => []

/-- `parse_files_from_response` of `app.py`. -/
def parse_files_from_response (text : Str) : List (Str × Str) :=
  let files := methodOne text
  if files = [] then methodTwo text else files

/-! ## app.py: the /generate-website handler around the AI call -/

/-- JSON-level shape of a `/generate-website` response. -/
structure GWResponse where
  status : Nat
  success : Bool
  error : Option Str
  files : Option (List (Str × Str))
deriving DecidableEq

/-- The `/generate-website` handler (`app.py` lines 588-651) with the
external AI call abstracted: `generated_text` stands for the text the model
returned for the prompt built from the description.  Validation happens
before the generation call, so the two 400 branches do not depend on
`generated_text`. -/
def generate_website (description ptype generated_text : Str) : GWResponse :=
  let user_description := pyStrip description
  let project_type := lowerStr ptype
  if user_description = [] then
    { status := 400, success := false
      error := some "Description is required".toList, files := none }
  else if project_type ≠ "vanilla".toList ∧ project_type ≠ "react".toList then
    { status := 400, success := false
      error := some "Type must be either \"vanilla\" or \"react\"".toList, files := none }
  else
    let files := parse_files_from_response generated_text
    if files = [] then
      { status := 500, success := false
        error := some "Failed to parse files from AI response".toList, files := none }
    else
      { status := 200, success := true, error := none, files := some files }

/-! ## The emitter for the round-trip property (from the spec's words):
a `FILE: <path>` line followed by a fenced code block per entry. -/

/-- Modelled from the spec: the lines of one emitted entry,
`FILE: <path>` then a fenced block containing the content. -/
def entryLines (pc : Str × Str) : List Str :=
  (FILEmark ++ ' ' :: pc.1) :: fenceStr :: (pc.2.splitOn '\n' ++ [fenceStr])

/-- Modelled from the spec: the synthetic document built from a file set. -/
def emitFileSet (fs : List (Str × Str)) : Str :=
  joinNL ((fs.map entryLines).flatten)

/-! ## Claims about the classifier and the structure catalog -/

/-- C2: `determine_website_structure` is total and deterministic: every
description yields exactly one of the six categories, chosen first-match-wins
with priority ecommerce > web_application (auth) > blog > portfolio >
multi_page > landing_page; a description containing both an ecommerce
keyword and an auth keyword (e.g. both "shop" and "login") classifies as
ecommerce, and the empty string or any description matching no keyword set
yields landing_page. -/
theorem classifier_total_and_priority :
    (∀ d : Str, (determine_website_structure d).type ∈
        ["ecommerce".toList, "web_application".toList, "blog".toList,
         "portfolio".toList, "multi_page".toList, "landing_page".toList]) ∧
    (∀ d : Str, anyKeyword ecommerceKeywords (lowerStr d) = true →
        (determine_website_structure d).type = "ecommerce".toList) ∧
    (∀ d : Str, ("shop".toList <:+: lowerStr d) → ("login".toList <:+: lowerStr d) →
        (determine_website_structure d).type = "ecommerce".toList) ∧
    (∀ d : Str, anyKeyword ecommerceKeywords (lowerStr d) = false →
        anyKeyword authKeywords (lowerStr d) = true →
        (determine_website_structure d).type = "web_application".toList) ∧
    (∀ d : Str, anyKeyword ecommerceKeywords (lowerStr d) = false →
        anyKeyword authKeywords (lowerStr d) = false →
        anyKeyword blogKeywords (lowerStr d) = true →
        (determine_website_structure d).type = "blog".toList) ∧
    (∀ d : Str, anyKeyword ecommerceKeywords (lowerStr d) = false →
        anyKeyword authKeywords (lowerStr d) = false →
        anyKeyword blogKeywords (lowerStr d) = false →
        anyKeyword portfolioKeywords (lowerStr d) = true →
        (determine_website_structure d).type = "portfolio".toList) ∧
    (∀ d : Str, anyKeyword ecommerceKeywords (lowerStr d) = false →
        anyKeyword authKeywords (lowerStr d) = false →
        anyKeyword blogKeywords (lowerStr d) = false →
        anyKeyword portfolioKeywords (lowerStr d) = false →
        anyKeyword multipageKeywords (lowerStr d) = true →
        (determine_website_structure d).type = "multi_page".toList) ∧
    (∀ d : Str, anyKeyword ecommerceKeywords (lowerStr d) = false →
        anyKeyword authKeywords (lowerStr d) = false →
        anyKeyword blogKeywords (lowerStr d) = false →
        anyKeyword portfolioKeywords (lowerStr d) = false →
        anyKeyword multipageKeywords (lowerStr d) = false →
        (determine_website_structure d).type = "landing_page".toList) ∧
    (determine_website_structure "".toList).type = "landing_page".toList := by
  have hecom : ∀ d : Str, anyKeyword ecommerceKeywords (lowerStr d) = true →
      (determine_website_structure d).type = "ecommerce".toList := by
    intro d h
    simp [determine_website_structure, h]
  refine ⟨?_, hecom, ?_, ?_, ?_, ?_, ?_, ?_, by decide⟩
  · intro d
    simp only [determine_website_structure]
    split_ifs <;> simp
  · intro d hshop _
    refine hecom d ?_
    simp only [anyKeyword, List.any_eq_true]
    exact ⟨"shop".toList, by decide, by simpa [containsSub] using hshop⟩
  · intro d h1 h2
    simp [determine_website_structure, h1, h2]
  · intro d h1 h2 h3
    simp [determine_website_structure, h1, h2, h3]
  · intro d h1 h2 h3 h4
    simp [determine_website_structure, h1, h2, h3, h4]
  · intro d h1 h2 h3 h4 h5
    simp [determine_website_structure, h1, h2, h3, h4, h5]
  · intro d h1 h2 h3 h4 h5
    simp [determine_website_structure, h1, h2, h3, h4, h5]

theorem classifier_total_and_priority_witness :
    (determine_website_structure "my shop with login".toList).type = "ecommerce".toList :=
  classifier_total_and_priority.2.2.1 "my shop with login".toList (by decide) (by decide)

/-- C3 counterexample: the portfolio manifest is NOT the multi-page pattern
plus the five portfolio files — `services.html` (and `css/responsive.css`,
`js/navigation.js`) of the multi-page pattern are absent from it. -/
theorem structure_catalog_portfolio_cex :
    get_portfolio_structure.files ≠
      get_multi_page_structure.files ++
        ["projects.html", "project-detail.html", "css/projects.css",
         "js/projects.js", "js/filter.js"].map String.toList ∧
    "services.html".toList ∈ get_multi_page_structure.files ∧
    "services.html".toList ∉ get_portfolio_structure.files := by
  decide

/-- C3 (amended): the catalog lookup for each of the six categories returns
exactly the listed file manifest  in order — with the portfolio manifest being
its own ten-file list (sharing only part of the multi-page pattern: no
`services.html`, `css/responsive.css` or `js/navigation.js`) — and
`needs_backend`/`needs_database` are true/true for ecommerce and
web_application and false/false for the other four. -/
theorem structure_catalog_amended :
    get_landing_page_structure.files =
      ["index.html", "style.css", "script.js"].map String.toList ∧
    get_multi_page_structure.files =
      ["index.html", "about.html", "services.html", "contact.html",
       "css/style.css", "css/responsive.css", "js/script.js",
       "js/navigation.js"].map String.toList ∧
    get_portfolio_structure.files =
      ["index.html", "about.html", "projects.html", "project-detail.html",
       "contact.html", "css/style.css", "css/projects.css", "js/script.js",
       "js/projects.js", "js/filter.js"].map String.toList ∧
    get_blog_structure.files =
      ["index.html", "article.html", "about.html", "contact.html",
       "css/style.css", "css/blog.css", "js/script.js", "js/blog.js"].map String.toList ∧
    get_webapp_structure.files =
      ["public/index.html", "public/login.html", "public/signup.html",
       "public/dashboard.html", "public/css/style.css", "public/css/auth.css",
       "public/css/dashboard.css", "public/js/main.js", "public/js/auth.js",
       "public/js/dashboard.js", "backend/server.js", "backend/routes/auth.js",
       "backend/routes/users.js", "backend/models/User.js",
       "backend/middleware/auth.js", "backend/config/db.js", "package.json",
       ".env.example", ".gitignore", "README.md"].map String.toList ∧
    get_ecommerce_structure.files =
      ["index.html", "products.html", "product-detail.html", "cart.html",
       "checkout.html", "login.html", "signup.html", "account.html",
       "css/style.css", "css/products.css", "css/cart.css", "js/products.js",
       "js/cart.js", "js/checkout.js", "backend/server.js",
       "backend/routes/products.js", "backend/routes/cart.js",
       "backend/routes/orders.js", "backend/models/Product.js",
       "backend/models/Order.js", "backend/models/User.js", "package.json",
       "README.md", "database/schema.sql"].map String.toList ∧
    (determine_website_structure "shop".toList).needs_backend = true ∧
    (determine_website_structure "shop".toList).needs_database = true ∧
    (determine_website_structure "shop".toList).files = get_ecommerce_structure.files ∧
    (determine_website_structure "login".toList).needs_backend = true ∧
    (determine_website_structure "login".toList).needs_database = true ∧
    (determine_website_structure "login".toList).files = get_webapp_structure.files ∧
    (determine_website_structure "blog".toList).needs_backend = false ∧
    (determine_website_structure "blog".toList).needs_database = false ∧
    (determine_website_structure "blog".toList).files = get_blog_structure.files ∧
    (determine_website_structure "portfolio".toList).needs_backend = false ∧
    (determine_website_structure "portfolio".toList).needs_database = false ∧
    (determine_website_structure "portfolio".toList).files = get_portfolio_structure.files ∧
    (determine_website_structure "menu".toList).needs_backend = false ∧
    (determine_website_structure "menu".toList).needs_database = false ∧
    (determine_website_structure "menu".toList).files = get_multi_page_structure.files ∧
    (determine_website_structure "".toList).needs_backend = false ∧
    (determine_website_structure "".toList).needs_database = false ∧
    (determine_website_structure "".toList).files = get_landing_page_structure.files := by
  decide

/-- C4: contrary to the claim, the exact filenames `server.js` and
`backend/server.js` do NOT receive the Express-server instruction, nor do
`.js` paths containing `routes`/`models` receive the route/model
instructions: the `.js`-suffix branch of `build_file_instructions` captures
them first and returns the generic JavaScript instruction.  (The dedicated
`server.js`/`routes`/`models` branches are unreachable for `.js` paths.) -/
theorem build_file_instructions_dispatch_bug :
    build_file_instructions "backend/server.js".toList = genericJsInstructions ∧
    build_file_instructions "server.js".toList = genericJsInstructions ∧
    build_file_instructions "backend/routes/auth.js".toList = genericJsInstructions ∧
    build_file_instructions "backend/models/User.js".toList = genericJsInstructions ∧
    genericJsInstructions ≠ serverJsInstructions ∧
    genericJsInstructions ≠ routesInstructions ∧
    genericJsInstructions ≠ modelsInstructions := by
  decide

/-! ## Claims about extract_keywords_from_description -/

/-- `List.find?` over `pre ++ a :: post` returns `a` when nothing in `pre`
matches and `a` does. -/
theorem find?_first_of_prefix_false {α : Type} (p : α → Bool) (pre post : List α)
    (a : α) (hpre : ∀ x ∈ pre, p x = false) (ha : p a = true) :
    (pre ++ a :: post).find? p = some a := by
  induction pre with
  | nil => simp [List.find?_cons, ha]
  | cons x t ih =>
    have hx := hpre x (List.mem_cons_self x t)
    simp only [List.cons_append, List.find?_cons, hx]
    exact ih (fun y hy => hpre y (List.mem_cons_of_mem x hy))

/-- C7: keyword derivation is total, deterministic and first-match-wins over
the ten-topic table, returning the first 3 keywords of the first topic whose
name occurs in the lower-cased description, the general fallback when no
topic matches, and in particular the coffee keywords for
"I want a coffee shop site". -/
theorem extract_keywords_first_match :
    (∀ (d : Str) (pre post : List (Str × List Str)) (tk : Str × List Str),
        keyword_map = pre ++ tk :: post →
        (∀ tk2 ∈ pre, containsSub (lowerStr d) tk2.1 = false) →
        containsSub (lowerStr d) tk.1 = true →
        extract_keywords_from_description d = tk.2.take 3) ∧
    (∀ d : Str, (∀ tk ∈ keyword_map, containsSub (lowerStr d) tk.1 = false) →
        extract_keywords_from_description d = generalKeywords) ∧
    (∀ d : Str, containsSub (lowerStr d) "coffee".toList = true →
        extract_keywords_from_description d =
          ["coffee", "cafe", "espresso"].map String.toList) ∧
    extract_keywords_from_description "I want a coffee shop site".toList =
      ["coffee", "cafe", "espresso"].map String.toList := by
  have htake : ∀ tk ∈ keyword_map, tk.2.take 3 ≠ [] := by decide
  have hfirst : ∀ (d : Str) (pre post : List (Str × List Str)) (tk : Str × List Str),
      keyword_map = pre ++ tk :: post →
      (∀ tk2 ∈ pre, containsSub (lowerStr d) tk2.1 = false) →
      containsSub (lowerStr d) tk.1 = true →
      extract_keywords_from_description d = tk.2.take 3 := by
    intro d pre post tk hkm hpre htk
    have hfind : keyword_map.find? (fun tk2 => containsSub (lowerStr d) tk2.1) = some tk := by
      rw [hkm]
      exact find?_first_of_prefix_false _ pre post tk hpre htk
    have hne : tk.2.take 3 ≠ [] := htake tk (by rw [hkm]; exact List.mem_append_right _ (List.mem_cons_self _ _))
    simp [extract_keywords_from_description, hfind, hne]
  have hcoffee : ∀ d : Str, containsSub (lowerStr d) "coffee".toList = true →
      extract_keywords_from_description d =
        ["coffee", "cafe", "espresso"].map String.toList := by
    intro d h
    have := hfirst d []
      (keyword_map.drop 1)
      ("coffee".toList, ["coffee", "cafe", "espresso", "latte", "barista"].map String.toList)
      (by decide) (by simp) h
    simpa using this
  refine ⟨hfirst, ?_, hcoffee, hcoffee _ (by decide)⟩
  · intro d hall
    have hfind : keyword_map.find? (fun tk2 => containsSub (lowerStr d) tk2.1) = none := by
      rw [List.find?_eq_none]
      intro tk htk
      simp [hall tk htk]
    simp [extract_keywords_from_description, hfind]

theorem extract_keywords_first_match_witness :
    extract_keywords_from_description "I love coffee".toList =
      ["coffee", "cafe", "espresso"].map String.toList :=
  extract_keywords_first_match.2.2.1 "I love coffee".toList (by decide)

/-- C10: `extract_keywords_from_description` returns exactly 3 keywords for
every input: each topic list has 5 entries truncated to 3, and the fallback
has exactly 3. -/
theorem extract_keywords_length_three (d : Str) :
    (extract_keywords_from_description d).length = 3 := by
  unfold extract_keywords_from_description
  cases h : keyword_map.find? (fun tk => containsSub (lowerStr d) tk.1) with
  | none => simp [h, generalKeywords]
  | some tk =>
    have hm : tk ∈ keyword_map := List.mem_of_find?_eq_some h
    have h3 : ∀ tk2 ∈ keyword_map, (tk2.2.take 3).length = 3 := by decide
    have hlen := h3 tk hm
    have hne : tk.2.take 3 ≠ [] := by
      intro hnil
      rw [hnil] at hlen
      simp at hlen
    simp [h, hne, hlen]

/-! ## Claim about /generate-website input validation -/

/-- C8: a request whose description is empty or whitespace-only receives 400
with error "Description is required", and a request whose lower-cased type is
neither "vanilla" nor "react" receives 400; in both cases the result does not
depend on the generated text (validation precedes the generation call). -/
theorem generate_website_validation :
    (∀ d t g : Str, pyStrip d = [] →
        generate_website d t g =
          { status := 400, success := false,
            error := some "Description is required".toList, files := none }) ∧
    (∀ d t g : Str, lowerStr t ≠ "vanilla".toList → lowerStr t ≠ "react".toList →
        (generate_website d t g).status = 400 ∧
        (generate_website d t g).success = false) := by
  constructor
  · intro d t g h
    simp [generate_website, h]
  · intro d t g h1 h2
    by_cases hd : pyStrip d = []
    · simp [generate_website, hd]
    · simp only [generate_website]
      rw [if_neg hd, if_pos (And.intro h1 h2)]
      exact ⟨rfl, rfl⟩

theorem generate_website_validation_witness :
    generate_website "   ".toList "vanilla".toList "whatever".toList =
      { status := 400, success := false,
        error := some "Description is required".toList, files := none } ∧
    (generate_website "todo app".toList "spa".toList "whatever".toList).status = 400 ∧
    (generate_website "todo app".toList "spa".toList "whatever".toList).success = false :=
  ⟨generate_website_validation.1 _ _ _ (by decide),
   (generate_website_validation.2 "todo app".toList _ _ (by decide) (by decide)).1,
   (generate_website_validation.2 "todo app".toList _ _ (by decide) (by decide)).2⟩

/-! ## Parser lemmas: the FILE:-marker pass on marker-free text -/

/-- Processing lines that contain no `FILE:` marker from a state with no
current file touches neither the dict, the current file, nor the buffer. -/
theorem foldl_noFILE_noCur (ls : List Str) :
    ∀ st : ParseState, (∀ l ∈ ls, containsSub l FILEmark = false) → st.current = [] →
      (List.foldl procLine st ls).files = st.files ∧
      (List.foldl procLine st ls).current = [] ∧
      (List.foldl procLine st ls).buf = st.buf := by
  induction ls with
  | nil => intro st _ hc; exact ⟨rfl, hc, rfl⟩
  | cons l t ih =>
    intro st h hc
    have hl := h l (List.mem_cons_self l t)
    have hrest : ∀ x ∈ t, containsSub x FILEmark = false :=
      fun x hx => h x (List.mem_cons_of_mem l hx)
    simp only [List.foldl_cons]
    by_cases hf : startsWith (pyStrip l) fenceStr = true
    · have hstep : procLine st l = { st with inCode := !st.inCode } := by
        simp [procLine, hl, hf]
      rw [hstep]
      exact ih _ hrest hc
    · have hstep : procLine st l = st := by
        simp [procLine, hl, hf, hc]
      rw [hstep]
      exact ih _ hrest hc

/-- Method 1 yields the empty mapping on text without `FILE:` markers. -/
theorem methodOne_eq_nil (text : Str)
    (h : ∀ l ∈ text.splitOn '\n', containsSub l FILEmark = false) :
    methodOne text = [] := by
  unfold methodOne
  obtain ⟨hf, hc, _⟩ := foldl_noFILE_noCur (text.splitOn '\n') initState h rfl
  unfold flushFiles
  rw [if_neg]
  · exact hf
  · intro hcon
    exact hcon.1 hc

theorem dinsert_nil (k v : Str) : dinsert [] k v = [(k, v)] := rfl

theorem dinsert_cons_of_ne (k' v' : Str) (m : List (Str × Str)) (k v : Str)
    (h : k' ≠ k) : dinsert ((k', v') :: m) k v = (k', v') :: dinsert m k v := by
  simp [dinsert, h]

/-- C5: on text with no `FILE:` marker in any line, if the fenced-block
extraction finds at least 3 blocks, the parser assigns the first three, in
order, to `index.html`, `style.css`, `script.js` and discards the rest. -/
theorem parser_fallback_three_blocks (text b1 b2 b3 : Str) (rest : List Str)
    (hline : ∀ l ∈ text.splitOn '\n', containsSub l FILEmark = false)
    (hfb : findBlocks text = b1 :: b2 :: b3 :: rest) :
    parse_files_from_response text =
      [("index.html".toList, pyStrip b1), ("style.css".toList, pyStrip b2),
       ("script.js".toList, pyStrip b3)] := by
  have h1 := methodOne_eq_nil text hline
  have h2 : methodTwo text =
      [("index.html".toList, pyStrip b1), ("style.css".toList, pyStrip b2),
       ("script.js".toList, pyStrip b3)] := by
    unfold methodTwo
    rw [hfb]
    show dinsert (dinsert (dinsert [] "index.html".toList (pyStrip b1))
      "style.css".toList (pyStrip b2)) "script.js".toList (pyStrip b3) = _
    rw [dinsert_nil, dinsert_cons_of_ne _ _ _ _ _ (by decide), dinsert_nil,
      dinsert_cons_of_ne _ _ _ _ _ (by decide), dinsert_cons_of_ne _ _ _ _ _ (by decide),
      dinsert_nil]
  simp [parse_files_from_response, h1, h2]

theorem parser_fallback_three_blocks_witness :
    parse_files_from_response "```html\n<h1>A</h1>\n```\n```css\nbody\n```\n```js\nlet x\n```".toList =
      [("index.html".toList, "<h1>A</h1>".toList), ("style.css".toList, "body".toList),
       ("script.js".toList, "let x".toList)] :=
  (parser_fallback_three_blocks
    "```html\n<h1>A</h1>\n```\n```css\nbody\n```\n```js\nlet x\n```".toList
    "<h1>A</h1>\n".toList "body\n".toList "let x\n".toList []
    (by decide) (by decide)).trans (by decide)

/-- With fewer than 3 fenced blocks, method 2 yields nothing. -/
theorem methodTwo_eq_nil_of_lt (text : Str)
    (hblocks : (findBlocks text).length < 3) : methodTwo text = [] := by
  unfold methodTwo
  cases hfb : findBlocks text with
  | nil => rfl
  | cons a t =>
    cases t with
    | nil => rfl
    | cons b t2 =>
      cases t2 with
      | nil => rfl
      | cons c t3 =>
        rw [hfb] at hblocks
        simp at hblocks
        omega

/-- C6: on text with no `FILE:` marker in any line and fewer than 3 fenced
blocks, the parser returns the empty mapping, and the `/generate-website`
handler then responds 500 with the parse-failure error rather than a partial
result. -/
theorem parser_failure_empty_and_500 (text d : Str)
    (hline : ∀ l ∈ text.splitOn '\n', containsSub l FILEmark = false)
    (hblocks : (findBlocks text).length < 3)
    (hd : pyStrip d ≠ []) :
    parse_files_from_response text = [] ∧
    generate_website d "vanilla".toList text =
      { status := 500, success := false,
        error := some "Failed to parse files from AI response".toList, files := none } := by
  have h1 := methodOne_eq_nil text hline
  have h2 : methodTwo text = [] := methodTwo_eq_nil_of_lt text hblocks
  have hp : parse_files_from_response text = [] := by
    simp [parse_files_from_response, h1, h2]
  refine ⟨hp, ?_⟩
  have hty : ¬ (lowerStr "vanilla".toList ≠ "vanilla".toList ∧
      lowerStr "vanilla".toList ≠ "react".toList) := by decide
  simp only [generate_website]
  rw [if_neg hd, if_neg hty, hp, if_pos rfl]

theorem parser_failure_empty_and_500_witness :
    parse_files_from_response "hello world".toList = [] ∧
    generate_website "todo app".toList "vanilla".toList "hello world".toList =
      { status := 500, success := false,
        error := some "Failed to parse files from AI response".toList, files := none } :=
  parser_failure_empty_and_500 "hello world".toList "todo app".toList
    (by decide) (by decide) (by decide)

/-! ## String lemmas for the round-trip proof -/

/-- A strip-invariant string has no leading or trailing Python whitespace. -/
theorem dropWhile_of_pyStrip_eq {p : Str} (h : pyStrip p = p) :
    p.dropWhile pySpace = p ∧ p.reverse.dropWhile pySpace = p.reverse := by
  have h' : ((p.dropWhile pySpace).reverse.dropWhile pySpace).reverse = p := h
  have hq : p.dropWhile pySpace <:+ p := List.dropWhile_suffix pySpace
  have hr : ((p.dropWhile pySpace).reverse.dropWhile pySpace) <:+
      (p.dropWhile pySpace).reverse := List.dropWhile_suffix pySpace
  have hlen : p.length ≤ (p.dropWhile pySpace).length := by
    have h1 := hr.length_le
    have h2 := congrArg List.length h'
    simp only [List.length_reverse] at h1 h2
    omega
  have hq_eq : p.dropWhile pySpace = p :=
    hq.eq_of_length (le_antisymm hq.length_le hlen)
  refine ⟨hq_eq, ?_⟩
  rw [hq_eq] at h'
  have h2 := congrArg List.reverse h'
  simpa using h2

/-- Stripping after prepending one space gives back a strip-invariant string. -/
theorem pyStrip_space_cons {p : Str} (h : pyStrip p = p) : pyStrip (' ' :: p) = p := by
  obtain ⟨h1, h2⟩ := dropWhile_of_pyStrip_eq h
  unfold pyStrip
  rw [List.dropWhile_cons]
  have : pySpace ' ' = true := by decide
  rw [if_pos this, h1, h2, List.reverse_reverse]

theorem splitAtFirst_of_no_occurrence (sep : Str) :
    ∀ l : Str, ¬ sep <:+: l → splitAtFirst sep l = none := by
  intro l
  induction l with
  | nil =>
    intro h
    unfold splitAtFirst
    rw [if_neg]
    intro hpre
    exact h (List.IsPrefix.isInfix (by simpa [startsWith] using hpre))
  | cons c t ih =>
    intro h
    unfold splitAtFirst
    rw [if_neg, ih (fun hinf => h (List.infix_cons hinf))]
    intro hpre
    exact h (List.IsPrefix.isInfix (by simpa [startsWith] using hpre))

theorem splitAtFirst_append (sep rest : Str) (hsep : sep ≠ []) :
    splitAtFirst sep (sep ++ rest) = some ([], rest) := by
  cases sep with
  | nil => exact absurd rfl hsep
  | cons s st =>
    show splitAtFirst (s :: st) (s :: (st ++ rest)) = some ([], rest)
    unfold splitAtFirst
    rw [if_pos]
    · rw [show s :: (st ++ rest) = (s :: st) ++ rest from rfl, List.drop_left]
    · simp [startsWith, List.prefix_append]

/-- `FILE:` does not occur in `' ' :: p` when it does not occur in `p`. -/
theorem FILEmark_not_infix_space_cons {p : Str} (h : ¬ FILEmark <:+: p) :
    ¬ FILEmark <:+: (' ' :: p) := by
  intro hin
  rcases List.infix_cons_iff.mp hin with hpre | hinf
  · have : 'F' = ' ' ∧ "ILE:".toList <+: p := List.cons_prefix_cons.mp hpre
    exact absurd this.1 (by decide)
  · exact h hinf

theorem pySplitSecond_marker (p : Str) (hni : ¬ FILEmark <:+: p) :
    pySplitSecond FILEmark (FILEmark ++ ' ' :: p) = ' ' :: p := by
  unfold pySplitSecond
  rw [splitAtFirst_append FILEmark (' ' :: p) (by decide)]
  show (match splitAtFirst FILEmark (' ' :: p) with
        | none => ' ' :: p
        | some (a, _) => a) = ' ' :: p
  rw [splitAtFirst_of_no_occurrence FILEmark (' ' :: p) (FILEmark_not_infix_space_cons hni)]

/-- The filename parsed back from an emitted `FILE: <path>` line is the path,
for backtick-free, strip-invariant, marker-free paths. -/
theorem parsedName_good (p : Str) (hp1 : pyStrip p = p) (hp2 : '`' ∉ p)
    (hp3 : ¬ FILEmark <:+: p) :
    parsedName (FILEmark ++ ' ' :: p) = p := by
  unfold parsedName
  rw [pySplitSecond_marker p hp3, pyStrip_space_cons hp1]
  have hfilter : p.filter (fun c => c ≠ '`') = p := by
    rw [List.filter_eq_self]
    intro a ha
    have hne : a ≠ '`' := fun he => hp2 (he ▸ ha)
    simp [hne]
  rw [hfilter, hp1]

/-! ## splitOnP piece lemmas -/

/-- No element of a piece of `splitOnP q` satisfies `q`. -/
theorem splitOnP_pieces_no_sep {α : Type} (q : α → Bool) :
    ∀ xs : List α, ∀ l ∈ xs.splitOnP q, ∀ a ∈ l, q a = false := by
  intro xs
  induction xs with
  | nil =>
    intro l hl a ha
    simp only [List.splitOnP_nil, List.mem_singleton] at hl
    subst hl
    exact absurd ha (List.not_mem_nil a)
  | cons c t ih =>
    intro l hl a ha
    rw [List.splitOnP_cons] at hl
    by_cases hqc : q c = true
    · rw [if_pos hqc] at hl
      rcases List.mem_cons.mp hl with rfl | hl2
      · exact absurd ha (List.not_mem_nil a)
      · exact ih l hl2 a ha
    · rw [if_neg hqc] at hl
      cases ht : t.splitOnP q with
      | nil => exact absurd ht (List.splitOnP_ne_nil q t)
      | cons h0 r =>
        rw [ht] at hl
        simp only [List.modifyHead_cons] at hl
        rcases List.mem_cons.mp hl with rfl | hl2
        · rcases List.mem_cons.mp ha with rfl | ha2
          · exact Bool.eq_false_iff.mpr hqc
          · exact ih h0 (ht ▸ List.mem_cons_self h0 r) a ha2
        · exact ih l (ht ▸ List.mem_cons_of_mem h0 hl2) a ha

/-- Every piece of `splitOnP q` is an infix of the original list (and the
head piece is a prefix). -/
theorem splitOnP_pieces_within {α : Type} (q : α → Bool) :
    ∀ xs : List α,
      (∀ l ∈ xs.splitOnP q, l <:+: xs) ∧
      (∀ h0 r, xs.splitOnP q = h0 :: r → h0 <+: xs) := by
  intro xs
  induction xs with
  | nil =>
    constructor
    · intro l hl
      simp only [List.splitOnP_nil, List.mem_singleton] at hl
      subst hl
      exact List.nil_infix
    · intro h0 r h
      simp only [List.splitOnP_nil] at h
      cases h
      exact List.nil_prefix
  | cons c t ih =>
    by_cases hqc : q c = true
    · rw [List.splitOnP_cons, if_pos hqc]
      constructor
      · intro l hl
        rcases List.mem_cons.mp hl with rfl | hl2
        · exact List.nil_infix
        · exact List.infix_cons (ih.1 l hl2)
      · intro h0 r h
        have : h0 = [] := by
          have := congrArg List.head? h
          simpa using this.symm
        subst this
        exact List.nil_prefix
    · rw [List.splitOnP_cons, if_neg hqc]
      cases ht : t.splitOnP q with
      | nil => exact absurd ht (List.splitOnP_ne_nil q t)
      | cons h0 r =>
        simp only [List.modifyHead_cons]
        have hh0 : h0 <+: t := ih.2 h0 r ht
        constructor
        · intro l hl
          rcases List.mem_cons.mp hl with rfl | hl2
          · exact ((List.cons_prefix_cons).mpr ⟨rfl, hh0⟩).isInfix
          · exact List.infix_cons (ih.1 l (ht ▸ List.mem_cons_of_mem h0 hl2))
        · intro h0' r' heq
          have h1 : h0' = c :: h0 := by
            have := congrArg List.head? heq
            simpa using this.symm
          subst h1
          exact (List.cons_prefix_cons).mpr ⟨rfl, hh0⟩

theorem splitOn_pieces_within (c : Str) : ∀ l ∈ c.splitOn '\n', l <:+: c :=
  (splitOnP_pieces_within (· == '\n') c).1

theorem splitOn_pieces_no_nl (c : Str) : ∀ l ∈ c.splitOn '\n', '\n' ∉ l := by
  intro l hl hmem
  have := splitOnP_pieces_no_sep (· == '\n') c l hl '\n' hmem
  simp at this

theorem splitOn_ne_nil' (c : Str) : c.splitOn '\n' ≠ [] :=
  List.splitOnP_ne_nil _ c

/-! ## Running the parsing loop over an emitted document -/

/-- Inside a code block with a current file, lines that are neither `FILE:`
markers nor fence lines are appended to the buffer, one after the other. -/
theorem foldl_collect (ls : List Str) :
    ∀ st : ParseState, (∀ l ∈ ls, containsSub l FILEmark = false) →
      (∀ l ∈ ls, startsWith (pyStrip l) fenceStr = false) →
      st.inCode = true → st.current ≠ [] →
      List.foldl procLine st ls = { st with buf := st.buf ++ ls } := by
  induction ls with
  | nil => intro st _ _ _ _; simp
  | cons l t ih =>
    intro st h1 h2 hin hcur
    have hstep : procLine st l = { st with buf := st.buf ++ [l] } := by
      simp [procLine, h1 l (List.mem_cons_self l t), h2 l (List.mem_cons_self l t), hin, hcur]
    simp only [List.foldl_cons, hstep]
    rw [ih { st with buf := st.buf ++ [l] }
      (fun x hx => h1 x (List.mem_cons_of_mem l hx))
      (fun x hx => h2 x (List.mem_cons_of_mem l hx)) hin hcur]
    simp

/-- The conditions on one (path, content) entry under which emit-then-parse
recovers it exactly. -/
def goodEntry (pc : Str × Str) : Prop :=
  pc.1 ≠ [] ∧ '\n' ∉ pc.1 ∧ '`' ∉ pc.1 ∧ pyStrip pc.1 = pc.1 ∧
  ¬ FILEmark <:+: pc.1 ∧ pyStrip pc.2 = pc.2 ∧ ¬ FILEmark <:+: pc.2 ∧
  ∀ l ∈ pc.2.splitOn '\n', startsWith (pyStrip l) fenceStr = false

instance goodEntry.decidable (pc : Str × Str) : Decidable (goodEntry pc) := by
  unfold goodEntry
  infer_instance

/-- Processing one emitted entry from any state: the previous file is
flushed, the entry's path becomes current, and its content lines fill the
buffer. -/
theorem foldl_entry (pc : Str × Str) (st : ParseState) (h : goodEntry pc) :
    List.foldl procLine st (entryLines pc) =
      { files := flushFiles st, current := pc.1, inCode := false,
        buf := pc.2.splitOn '\n' } := by
  obtain ⟨hp, hpn, hpb, hps, hpf, hcs, hcf, hcl⟩ := h
  have hFILEline : containsSub (FILEmark ++ ' ' :: pc.1) FILEmark = true := by
    simp only [containsSub, decide_eq_true_eq]
    exact (List.prefix_append FILEmark (' ' :: pc.1)).isInfix
  have hcF : ∀ l ∈ pc.2.splitOn '\n', containsSub l FILEmark = false := by
    intro l hl
    simp only [containsSub, decide_eq_false_iff_not]
    intro hinf
    exact hcf (hinf.trans (splitOn_pieces_within pc.2 l hl))
  unfold entryLines
  simp only [List.foldl_cons]
  have hstep1 : procLine st (FILEmark ++ ' ' :: pc.1) =
      ⟨flushFiles st, pc.1, false, []⟩ := by
    simp [procLine, hFILEline, parsedName_good pc.1 hps hpb hpf]
  rw [hstep1]
  have hstep2 : procLine ⟨flushFiles st, pc.1, false, []⟩ fenceStr =
      ⟨flushFiles st, pc.1, true, []⟩ := by
    have h1 : containsSub fenceStr FILEmark = false := by decide
    have h2 : startsWith (pyStrip fenceStr) fenceStr = true := by decide
    simp [procLine, h1, h2]
  rw [hstep2, List.foldl_append]
  rw [foldl_collect (pc.2.splitOn '\n') _ hcF hcl rfl hp]
  have h1 : containsSub fenceStr FILEmark = false := by decide
  have h2 : startsWith (pyStrip fenceStr) fenceStr = true := by decide
  simp [procLine, h1, h2]

/-- `flushFiles` on a state with a current file and a nonempty buffer. -/
theorem flushFiles_of_ne (F : List (Str × Str)) (cur : Str) (ic : Bool)
    (buf : List Str) (hc : cur ≠ []) (hb : buf ≠ []) :
    flushFiles ⟨F, cur, ic, buf⟩ = dinsert F cur (pyStrip (joinNL buf)) := by
  unfold flushFiles
  rw [if_pos ⟨hc, hb⟩]

/-- Folding the parsing loop over a whole emitted document and flushing
equals folding dict insertion of the entries. -/
theorem foldl_entries (fs : List (Str × Str)) :
    ∀ st : ParseState, (∀ pc ∈ fs, goodEntry pc) →
      flushFiles (List.foldl procLine st ((fs.map entryLines).flatten)) =
        List.foldl (fun F pc => dinsert F pc.1 pc.2) (flushFiles st) fs := by
  induction fs with
  | nil => intro st _; simp
  | cons pc rest ih =>
    intro st h
    have hpc := h pc (List.mem_cons_self pc rest)
    obtain ⟨hp, hn2, hb2, hs2, hf2, hcs, hcf, hcl⟩ := hpc
    simp only [List.map_cons, List.flatten_cons, List.foldl_append, List.foldl_cons]
    rw [foldl_entry pc st ⟨hp, hn2, hb2, hs2, hf2, hcs, hcf, hcl⟩]
    rw [ih _ (fun x hx => h x (List.mem_cons_of_mem pc hx))]
    rw [flushFiles_of_ne (flushFiles st) pc.1 false (pc.2.splitOn '\n') hp
      (splitOn_ne_nil' pc.2)]
    have hjoin : joinNL (pc.2.splitOn '\n') = pc.2 :=
      List.intercalate_splitOn pc.2 '\n'
    rw [hjoin, hcs]

/-- Inserting a fresh key appends it. -/
theorem dinsert_append_of_not_mem (m : List (Str × Str)) (k v : Str) :
    k ∉ m.map Prod.fst → dinsert m k v = m ++ [(k, v)] := by
  induction m with
  | nil => intro _; rfl
  | cons kv t ih =>
    intro h
    simp only [List.map_cons, List.mem_cons] at h
    push_neg at h
    obtain ⟨h1, h2⟩ := h
    calc dinsert (kv :: t) k v
        = kv :: dinsert t k v :=
          dinsert_cons_of_ne kv.1 kv.2 t k v (Ne.symm h1)
      _ = kv :: (t ++ [(k, v)]) := by rw [ih h2]
      _ = (kv :: t) ++ [(k, v)] := rfl

/-- Folding dict insertion of entries with pairwise-distinct fresh keys over
a dict that contains none of them appends them in order. -/
theorem foldl_dinsert_eq_append (fs : List (Str × Str)) :
    ∀ F : List (Str × Str), (∀ pc ∈ fs, pc.1 ∉ F.map Prod.fst) →
      (fs.map Prod.fst).Nodup →
      List.foldl (fun F pc => dinsert F pc.1 pc.2) F fs = F ++ fs := by
  induction fs with
  | nil => intro F _ _; simp
  | cons pc rest ih =>
    intro F hF hnd
    rw [List.map_cons] at hnd
    obtain ⟨hpc_rest, hnd_rest⟩ := List.nodup_cons.mp hnd
    simp only [List.foldl_cons]
    rw [dinsert_append_of_not_mem F pc.1 pc.2 (hF pc (List.mem_cons_self pc rest))]
    rw [ih (F ++ [pc]) ?fresh hnd_rest]
    · simp
    case fresh =>
      intro qc hq
      rw [List.map_append, List.mem_append]
      rintro (hmem | hmem)
      · exact hF qc (List.mem_cons_of_mem pc hq) hmem
      · simp only [List.map_cons, List.map_nil, List.mem_singleton] at hmem
        exact hpc_rest (hmem ▸ List.mem_map_of_mem Prod.fst hq)

/-- No line of an emitted document contains a newline character. -/
theorem emit_lines_no_nl (fs : List (Str × Str)) (hgood : ∀ pc ∈ fs, goodEntry pc) :
    ∀ l ∈ (fs.map entryLines).flatten, '\n' ∉ l := by
  intro l hl
  rw [List.mem_flatten] at hl
  obtain ⟨ls, hls, hlin⟩ := hl
  rw [List.mem_map] at hls
  obtain ⟨pc, hpc, rfl⟩ := hls
  obtain ⟨_, hn2, _, _, _, _, _, _⟩ := hgood pc hpc
  unfold entryLines at hlin
  rcases List.mem_cons.mp hlin with rfl | hlin2
  · intro hmem
    rcases List.mem_append.mp hmem with hA | hB
    · exact absurd hA (by decide)
    · rcases List.mem_cons.mp hB with he | hp2
      · exact absurd he (by decide)
      · exact hn2 hp2
  · rcases List.mem_cons.mp hlin2 with rfl | hlin3
    · decide
    · rcases List.mem_append.mp hlin3 with hcontent | hfence
      · exact splitOn_pieces_no_nl pc.2 l hcontent
      · rw [List.mem_singleton] at hfence
        subst hfence
        decide

/-- C1 (amended): emit-then-parse is the identity on file sets with
pairwise-distinct paths whose paths are nonempty, newline-free,
backtick-free, strip-invariant and `FILE:`-free, and whose contents are
strip-invariant, contain no `FILE:` substring and have no line whose
stripped form starts with a triple-backtick fence. -/
theorem parse_roundtrip_amended (fs : List (Str × Str))
    (hgood : ∀ pc ∈ fs, goodEntry pc)
    (hnd : (fs.map Prod.fst).Nodup) :
    parse_files_from_response (emitFileSet fs) = fs := by
  rcases fs with _ | ⟨pc0, rest⟩
  · decide
  · have hne : ((pc0 :: rest).map entryLines).flatten ≠ [] := by
      simp only [List.map_cons, List.flatten_cons]
      intro h
      have h1 := (List.append_eq_nil.mp h).1
      simp [entryLines] at h1
    have hsplit : (emitFileSet (pc0 :: rest)).splitOn '\n' =
        ((pc0 :: rest).map entryLines).flatten := by
      unfold emitFileSet joinNL
      exact List.splitOn_intercalate _ '\n' (emit_lines_no_nl _ hgood) hne
    have hm1 : methodOne (emitFileSet (pc0 :: rest)) =
        List.foldl (fun F pc => dinsert F pc.1 pc.2) [] (pc0 :: rest) := by
      unfold methodOne
      rw [hsplit, foldl_entries _ initState hgood]
      congr 1
    have hm2 : List.foldl (fun F pc => dinsert F pc.1 pc.2) [] (pc0 :: rest) =
        pc0 :: rest := by
      simpa using foldl_dinsert_eq_append (pc0 :: rest) [] (by simp) hnd
    have hm : methodOne (emitFileSet (pc0 :: rest)) = pc0 :: rest := hm1.trans hm2
    simp [parse_files_from_response, hm]

theorem parse_roundtrip_amended_witness :
    (∀ pc ∈ [("index.html".toList, "<h1>Hello</h1>".toList),
        ("style.css".toList, "body".toList)], goodEntry pc) ∧
    parse_files_from_response (emitFileSet
        [("index.html".toList, "<h1>Hello</h1>".toList),
         ("style.css".toList, "body".toList)]) =
      [("index.html".toList, "<h1>Hello</h1>".toList),
       ("style.css".toList, "body".toList)] :=
  ⟨by decide, parse_roundtrip_amended _ (by decide) (by decide)⟩

/-- C1 counterexample: the one-entry file set mapping `a.html` to `" x"`
satisfies the claim's hypotheses (no `FILE:` substring in the path, no
triple-backtick fence in the content), yet parsing the emitted document
returns `"x"`: the parser strips the buffered content, so the round trip
fails on content with leading or trailing whitespace. -/
theorem parse_roundtrip_cex :
    (¬ FILEmark <:+: "a.html".toList) ∧
    (∀ l ∈ (" x".toList).splitOn '\n', ¬ fenceStr <:+: l) ∧
    parse_files_from_response (emitFileSet [("a.html".toList, " x".toList)]) =
      [("a.html".toList, "x".toList)] ∧
    parse_files_from_response (emitFileSet [("a.html".toList, " x".toList)]) ≠
      [("a.html".toList, " x".toList)] := by
  decide

/-! ## C9: a FILE: path with an empty (or absent) code block is dropped -/

/-- The filenames declared by `FILE:` lines, as the parser would extract them. -/
def fileDecls (ls : List Str) : List Str :=
  ls.filterMap (fun l => if containsSub l FILEmark then some (parsedName l) else none)

/-- The lines collected by the parsing loop (lines strictly inside code
fences), starting from fence parity `i`. -/
def collected : Bool → List Str → List Str
  | _, [] => []
  | i, l :: ls =>
    if startsWith (pyStrip l) fenceStr then collected (!i) ls
    else if i = true then l :: collected i ls
    else collected i ls

theorem mem_keys_dinsert (m : List (Str × Str)) (k v x : Str) :
    x ∈ (dinsert m k v).map Prod.fst → x ∈ m.map Prod.fst ∨ x = k := by
  induction m with
  | nil =>
    intro h
    simp only [dinsert, List.map_cons, List.map_nil, List.mem_singleton] at h
    exact Or.inr h
  | cons kv t ih =>
    intro h
    by_cases he : kv.1 = k
    · have hkv : dinsert (kv :: t) k v = (k, v) :: t := by
        have := dinsert_cons_of_ne kv.1 kv.2 t k v
        simp [dinsert, he]
      rw [hkv] at h
      simp only [List.map_cons, List.mem_cons] at h
      rcases h with rfl | h2
      · exact Or.inr rfl
      · exact Or.inl (by simp only [List.map_cons, List.mem_cons]; exact Or.inr h2)
    · have hkv : dinsert (kv :: t) k v = kv :: dinsert t k v :=
        dinsert_cons_of_ne kv.1 kv.2 t k v he
      rw [hkv] at h
      simp only [List.map_cons, List.mem_cons] at h
      rcases h with rfl | h2
      · exact Or.inl (by simp)
      · rcases ih h2 with h3 | h3
        · exact Or.inl (by simp only [List.map_cons, List.mem_cons]; exact Or.inr h3)
        · exact Or.inr h3

theorem mem_keys_flush (st : ParseState) (x : Str) :
    x ∈ (flushFiles st).map Prod.fst →
      x ∈ st.files.map Prod.fst ∨ (x = st.current ∧ st.current ≠ []) := by
  unfold flushFiles
  split_ifs with hcond
  · intro h
    rcases mem_keys_dinsert _ _ _ _ h with h1 | h1
    · exact Or.inl h1
    · exact Or.inr ⟨h1, hcond.1⟩
  · exact Or.inl

/-- Where the current file and the dict keys of a run can come from. -/
theorem foldl_keys_current (ls : List Str) :
    ∀ (st : ParseState) (x : Str),
      ((List.foldl procLine st ls).current = st.current ∨
        (List.foldl procLine st ls).current ∈ fileDecls ls) ∧
      (x ∈ (List.foldl procLine st ls).files.map Prod.fst →
        x ∈ st.files.map Prod.fst ∨ (x = st.current ∧ st.current ≠ []) ∨
          x ∈ fileDecls ls) := by
  induction ls with
  | nil => intro st x; exact ⟨Or.inl rfl, fun h => Or.inl h⟩
  | cons l t ih =>
    intro st x
    simp only [List.foldl_cons]
    by_cases hF : containsSub l FILEmark = true
    · have hstep : procLine st l = ⟨flushFiles st, parsedName l, false, []⟩ := by
        unfold procLine
        rw [if_pos hF]
      have hdecl : fileDecls (l :: t) = parsedName l :: fileDecls t := by
        simp [fileDecls, hF]
      rw [hstep, hdecl]
      constructor
      · rcases (ih ⟨flushFiles st, parsedName l, false, []⟩ x).1 with h1 | h1
        · exact Or.inr (h1 ▸ List.mem_cons_self _ _)
        · exact Or.inr (List.mem_cons_of_mem _ h1)
      · intro h
        rcases (ih ⟨flushFiles st, parsedName l, false, []⟩ x).2 h with h1 | h1 | h1
        · rcases mem_keys_flush st x h1 with h2 | h2
          · exact Or.inl h2
          · exact Or.inr (Or.inl h2)
        · exact Or.inr (Or.inr (h1.1 ▸ List.mem_cons_self _ _))
        · exact Or.inr (Or.inr (List.mem_cons_of_mem _ h1))
    · have hcur : (procLine st l).current = st.current := by
        unfold procLine
        rw [if_neg hF]
        split_ifs <;> rfl
      have hfiles : (procLine st l).files = st.files := by
        unfold procLine
        rw [if_neg hF]
        split_ifs <;> rfl
      have hdecl : fileDecls (l :: t) = fileDecls t := by
        simp [fileDecls, hF]
      rw [hdecl]
      constructor
      · rcases (ih (procLine st l) x).1 with h1 | h1
        · exact Or.inl (h1.trans hcur)
        · exact Or.inr h1
      · intro h
        rcases (ih (procLine st l) x).2 h with h1 | h1 | h1
        · exact Or.inl (hfiles ▸ h1)
        · rw [hcur] at h1
          exact Or.inr (Or.inl h1)
        · exact Or.inr (Or.inr h1)

/-- Running the loop over marker-free lines with a current file set: the
dict and current file are unchanged, and the buffer grows by exactly the
lines inside code fences. -/
theorem collected_cons (i : Bool) (l : Str) (ls : List Str) :
    collected i (l :: ls) =
      if startsWith (pyStrip l) fenceStr then collected (!i) ls
      else if i = true then l :: collected i ls else collected i ls := rfl

theorem foldl_noFILE_cur (ls : List Str) :
    ∀ st : ParseState, (∀ l ∈ ls, containsSub l FILEmark = false) → st.current ≠ [] →
      (List.foldl procLine st ls).files = st.files ∧
      (List.foldl procLine st ls).current = st.current ∧
      (List.foldl procLine st ls).buf = st.buf ++ collected st.inCode ls := by
  induction ls with
  | nil => intro st _ _; simp [collected]
  | cons l t ih =>
    intro st h hcur
    have hl := h l (List.mem_cons_self l t)
    have hrest : ∀ x ∈ t, containsSub x FILEmark = false :=
      fun x hx => h x (List.mem_cons_of_mem l hx)
    simp only [List.foldl_cons]
    by_cases hf : startsWith (pyStrip l) fenceStr = true
    · have hstep : procLine st l = { st with inCode := !st.inCode } := by
        unfold procLine
        rw [if_neg (by simp [hl]), if_pos hf]
      rw [hstep]
      obtain ⟨h1, h2, h3⟩ := ih { st with inCode := !st.inCode } hrest hcur
      refine ⟨h1, h2, ?_⟩
      rw [h3]
      have hcoll : collected st.inCode (l :: t) = collected (!st.inCode) t := by
        rw [collected_cons, if_pos hf]
      rw [hcoll]
    · by_cases hic : st.inCode = true
      · have hstep : procLine st l = { st with buf := st.buf ++ [l] } := by
          unfold procLine
          rw [if_neg (by simp [hl]), if_neg (by simp [hf]), if_pos ⟨hic, hcur⟩]
        rw [hstep]
        obtain ⟨h1, h2, h3⟩ := ih { st with buf := st.buf ++ [l] } hrest hcur
        refine ⟨h1, h2, ?_⟩
        rw [h3]
        have hcoll : collected st.inCode (l :: t) = l :: collected st.inCode t := by
          rw [collected_cons, if_neg (by simp [hf]), if_pos hic]
        rw [hcoll, List.append_assoc]
        rfl
      · have hstep : procLine st l = st := by
          unfold procLine
          rw [if_neg (by simp [hl]), if_neg (by simp [hf]), if_neg (fun hc => hic hc.1)]
        rw [hstep]
        obtain ⟨h1, h2, h3⟩ := ih st hrest hcur
        refine ⟨h1, h2, ?_⟩
        rw [h3]
        have hic' : st.inCode = false := by
          cases hsti : st.inCode
          · rfl
          · exact absurd hsti hic
        have hcoll : collected st.inCode (l :: t) = collected st.inCode t := by
          rw [collected_cons, if_neg (by simp [hf]), hic']
          simp
        rw [hcoll]

/-- The keys of the fallback mapping are among the three fixed names. -/
theorem keys_methodTwo_sub (text : Str) (x : Str) :
    x ∈ (methodTwo text).map Prod.fst →
      x ∈ ["index.html".toList, "style.css".toList, "script.js".toList] := by
  unfold methodTwo
  cases hfb : findBlocks text with
  | nil => intro h; exact absurd h (by simp)
  | cons m0 t =>
    cases t with
    | nil => intro h; exact absurd h (by simp)
    | cons m1 t2 =>
      cases t2 with
      | nil => intro h; exact absurd h (by simp)
      | cons m2 t3 =>
        show x ∈ (dinsert (dinsert (dinsert [] "index.html".toList (pyStrip m0))
          "style.css".toList (pyStrip m1)) "script.js".toList (pyStrip m2)).map Prod.fst → _
        rw [dinsert_nil, dinsert_cons_of_ne _ _ _ _ _ (by decide), dinsert_nil,
          dinsert_cons_of_ne _ _ _ _ _ (by decide), dinsert_cons_of_ne _ _ _ _ _ (by decide),
          dinsert_nil]
        intro h
        simpa using h

theorem flush_nil (st : ParseState) (h : st.buf = []) : flushFiles st = st.files := by
  unfold flushFiles
  rw [if_neg (fun hc => hc.2 h)]

/-- C9 (amended): a path introduced by a `FILE:` line — with a nonempty
parsed name, since an empty name is falsy in the source and introduces no
path — that is followed by no lines inside a code fence before the next
`FILE:` line or the end of input, and whose parsed name is declared by no
other `FILE:` line, never appears as a key of the result, provided the
result is not produced by the positional fallback (the fallback's three
fixed names / at-least-3-blocks path can reintroduce such a name). -/
theorem parser_empty_block_dropped (text : Str) (pre mid post : List Str) (fl : Str)
    (hsplit : text.splitOn '\n' = pre ++ fl :: (mid ++ post))
    (hfl : containsSub fl FILEmark = true)
    (hp : parsedName fl ≠ [])
    (hmid : ∀ l ∈ mid, containsSub l FILEmark = false)
    (hpost : post = [] ∨ ∃ l2 ls2, post = l2 :: ls2 ∧ containsSub l2 FILEmark = true)
    (hempty : collected false mid = [])
    (hpre : parsedName fl ∉ fileDecls pre)
    (hpostd : parsedName fl ∉ fileDecls post)
    (hguard : parsedName fl ∉
        ["index.html".toList, "style.css".toList, "script.js".toList] ∨
      (findBlocks text).length < 3) :
    parsedName fl ∉ (parse_files_from_response text).map Prod.fst := by
  have hm1 : parsedName fl ∉ (methodOne text).map Prod.fst := by
    intro hmem
    unfold methodOne at hmem
    rw [hsplit, List.foldl_append, List.foldl_cons] at hmem
    set stp := List.foldl procLine initState pre with hstp
    have hkeys_pre : ∀ x, x ∈ stp.files.map Prod.fst → x ∈ fileDecls pre := by
      intro x hx
      rcases (foldl_keys_current pre initState x).2 hx with h1 | h1 | h1
      · exact absurd h1 (by simp [initState])
      · exact (h1.2 rfl).elim
      · exact h1
    have hcur_pre : stp.current = [] ∨ stp.current ∈ fileDecls pre := by
      have := (foldl_keys_current pre initState []).1
      simpa [initState] using this
    have hstep : procLine stp fl = ⟨flushFiles stp, parsedName fl, false, []⟩ := by
      unfold procLine
      rw [if_pos hfl]
    rw [hstep] at hmem
    have hkeys1 : ∀ x, x ∈ (flushFiles stp).map Prod.fst → x ∈ fileDecls pre := by
      intro x hx
      rcases mem_keys_flush stp x hx with h1 | h1
      · exact hkeys_pre x h1
      · rcases hcur_pre with h2 | h2
        · exact absurd h2 h1.2
        · exact h1.1 ▸ h2
    rw [List.foldl_append] at hmem
    obtain ⟨hm_files, hm_cur, hm_buf⟩ :=
      foldl_noFILE_cur mid ⟨flushFiles stp, parsedName fl, false, []⟩ hmid hp
    set st2 := List.foldl procLine ⟨flushFiles stp, parsedName fl, false, []⟩ mid with hst2
    have hbuf2 : st2.buf = [] := by
      rw [hm_buf]
      simpa using hempty
    have hfiles2 : ∀ x, x ∈ st2.files.map Prod.fst → x ∈ fileDecls pre := by
      intro x hx
      rw [hm_files] at hx
      exact hkeys1 x hx
    rcases hpost with rfl | ⟨l2, ls2, rfl, hFl2⟩
    · rw [List.foldl_nil] at hmem
      rw [flush_nil st2 hbuf2] at hmem
      exact hpre (hfiles2 _ hmem)
    · have hdecl2 : fileDecls (l2 :: ls2) = parsedName l2 :: fileDecls ls2 := by
        simp [fileDecls, hFl2]
      have hstep2 : procLine st2 l2 = ⟨st2.files, parsedName l2, false, []⟩ := by
        unfold procLine
        rw [if_pos hFl2, flush_nil st2 hbuf2]
      rw [List.foldl_cons, hstep2] at hmem
      have hnotdecl : parsedName fl ∉ parsedName l2 :: fileDecls ls2 := by
        rw [← hdecl2]
        exact hpostd
      rcases mem_keys_flush _ _ hmem with h1 | h1
      · rcases (foldl_keys_current ls2 ⟨st2.files, parsedName l2, false, []⟩ _).2 h1
          with h2 | h2 | h2
        · exact hpre (hfiles2 _ h2)
        · exact hnotdecl (h2.1 ▸ List.mem_cons_self _ _)
        · exact hnotdecl (List.mem_cons_of_mem _ h2)
      · rcases (foldl_keys_current ls2 ⟨st2.files, parsedName l2, false, []⟩ []).1
          with h2 | h2
        · exact hnotdecl ((h1.1.trans h2) ▸ List.mem_cons_self _ _)
        · exact hnotdecl (List.mem_cons_of_mem _ (h1.1 ▸ h2))
  by_cases hmo : methodOne text = []
  · have hparse : parse_files_from_response text = methodTwo text := by
      simp [parse_files_from_response, hmo]
    rw [hparse]
    rcases hguard with hg | hg
    · intro hmem
      exact hg (keys_methodTwo_sub text _ hmem)
    · rw [methodTwo_eq_nil_of_lt text hg]
      simp
  · have hparse : parse_files_from_response text = methodOne text := by
      simp [parse_files_from_response, hmo]
    rw [hparse]
    exact hm1

theorem parser_empty_block_dropped_witness :
    parsedName "FILE: a".toList ∉
      (parse_files_from_response "FILE: a\n```\n```\nFILE: b\n```\nx\n```".toList).map
        Prod.fst :=
  parser_empty_block_dropped "FILE: a\n```\n```\nFILE: b\n```\nx\n```".toList
    [] ["```".toList, "```".toList]
    ["FILE: b".toList, "```".toList, "x".toList, "```".toList]
    "FILE: a".toList
    (by decide) (by decide) (by decide) (by decide)
    (Or.inr ⟨"FILE: b".toList, ["```".toList, "x".toList, "```".toList],
      rfl, by decide⟩)
    (by decide) (by decide) (by decide) (Or.inl (by decide))

/-- C9 counterexample: in this document the path `index.html` is introduced
by a `FILE:` line followed only by fence lines (no line inside a code fence)
up to the end of input, yet it DOES appear as a key of the result: the
primary pass yields nothing, and the fallback finds three (empty) fenced
blocks and assigns them to the fixed names, `index.html` among them. -/
theorem parser_empty_block_cex :
    ("FILE: index.html\n```\n```\n```\n```\n```\n```".toList).splitOn '\n' =
      "FILE: index.html".toList :: List.replicate 6 "```".toList ∧
    containsSub "FILE: index.html".toList FILEmark = true ∧
    parsedName "FILE: index.html".toList = "index.html".toList ∧
    collected false (List.replicate 6 "```".toList) = [] ∧
    "index.html".toList ∈
      (parse_files_from_response
        "FILE: index.html\n```\n```\n```\n```\n```\n```".toList).map Prod.fst := by
  decide
